import Mathlib

/-
  Formal model of koatty_schedule: the distributed lock engine
  (src/locker.ts) and the lock-guarded scheduler wrapper (the decorator
  file defining SchedulerLock).  Machine integers do not overflow here
  (times and counters are plain numbers), so Nat/Int are used directly.
-/

namespace KoattySchedule

/-- Remote record stored for a lock key: the token value and the PX expiry
in milliseconds that was passed at SET time. -/
structure RemoteRecord where
  value : String
  px : Nat
deriving DecidableEq

/-- Content of the remote key-value store, as an association list keyed by
the full (prefixed) lock key.  Keys are unique in the store; the first
binding wins everywhere below. -/
abbrev Store := List (String × RemoteRecord)

/-- redis GET of one key. -/
def storeGet (s : Store) (k : String) : Option RemoteRecord :=
  (s.find? (fun p => p.1 == k)).map (fun p => p.2)

/-- redis DEL of one key. -/
def storeDel (s : Store) (k : String) : Store :=
  s.filter (fun p => p.1 != k)

/-- Semantics of the lua_unlock script registered in Locker.defineCommand
(locker.ts lines 70-82): GET the current value; return 0 when the key is
absent; when the value equals ARGV[1], DEL the key and return the DEL count
(1); otherwise return -1 and leave the store untouched. -/
def luaUnlock (s : Store) (k tok : String) : Int × Store :=
  match storeGet s k with
  | none => (0, s)
  | some r => if r.value = tok then (1, storeDel s k) else (-1, s)

/-- The redis client as the Locker sees it: whether status equals "ready",
whether the lua_unlock command has already been defined on it, and a ghost
counter of how many times defineCommand ran on this client. -/
structure Client where
  ready : Bool
  hasLua : Bool
  regCount : Nat
deriving DecidableEq

/-- Outcome of redisStore.getConnection() inside Locker.defineCommand:
a client, a null return, or a thrown connection error. -/
inductive ConnResult where
  | ok (c : Client)
  | nullConn
  | err
deriving DecidableEq

/-- Process-local ownership entry recorded by Locker.lock
(locker.ts line 111): the token value, the expire argument, and Date.now()
at acquisition. -/
structure LockEntry where
  value : String
  expire : Nat
  time : Nat
deriving DecidableEq

/-- Process-local state of a Locker instance: the lockMap and the cached
client (this.client, initially null). -/
structure LockerState where
  lockMap : List (String × LockEntry)
  client : Option Client
deriving DecidableEq

/-- lockMap.get / lockMap.has (has is get-is-some for a JS Map). -/
def mapGet (m : List (String × LockEntry)) (k : String) : Option LockEntry :=
  (m.find? (fun p => p.1 == k)).map (fun p => p.2)

/-- lockMap.delete -/
def mapDel (m : List (String × LockEntry)) (k : String) :
    List (String × LockEntry) :=
  m.filter (fun p => p.1 != k)

/-- lockMap.set -/
def mapSet (m : List (String × LockEntry)) (k : String) (v : LockEntry) :
    List (String × LockEntry) :=
  (k, v) :: mapDel m k

/-- The reconnect path inside Locker.defineCommand (locker.ts 65-84):
fetch a connection; when getConnection throws, the catch returns null and
this.client keeps its old value; when it returns null, this.client is
assigned null; when it returns a client, lua_unlock is defined on it only
when the client does not already carry it. -/
def doConnect (st : LockerState) (r : ConnResult) : Option Client × LockerState :=
  match r with
  | ConnResult.err => (none, st)
  | ConnResult.nullConn => (none, ⟨st.lockMap, none⟩)
  | ConnResult.ok c =>
      let c2 := if c.hasLua then c else ⟨c.ready, true, c.regCount + 1⟩
      (some c2, ⟨st.lockMap, some c2⟩)

/-- Locker.defineCommand (locker.ts 63-90): reuse the cached client when
its status is ready, otherwise (re)connect. -/
def defineCommand (st : LockerState) (r : ConnResult) : Option Client × LockerState :=
  match st.client with
  | none => doConnect st r
  | some c => if c.ready then (some c, st) else doConnect st r

/-- crypto.randomBytes(16): the number of random bytes drawn for each
fresh lock token in Locker.lock (locker.ts line 104); the token is their
hex encoding. -/
def tokenRandomBytes : Nat := 16

/-- Result of Locker.lock: the boolean return, the post states of the
Locker and of the store, and how many SET operations reached the store. -/
structure LockResult where
  ret : Bool
  st : LockerState
  store : Store
  setOps : Nat
deriving DecidableEq

/-- Locker.lock (locker.ts 100-117).  The token parameter stands for the
hex encoding of the crypto.randomBytes(16) draw of this call; keyPre is
this.options.key_prefix.  The single store operation is
client.set(key, value, NX, PX, expire): it stores the record only when the
key is absent and returns null otherwise.  setFails true models that SET
call rejecting (store error); a null client makes client.set throw.  Both
are caught: lock never throws, it returns false. -/
def lock (st : LockerState) (store : Store) (keyPre key token : String)
    (expire now : Nat) (conn : ConnResult) (setFails : Bool) : LockResult :=
  let p := defineCommand st conn
  let fkey := keyPre ++ key
  match p.1 with
  | none => ⟨false, p.2, store, 0⟩
  | some _ =>
    if setFails then ⟨false, p.2, store, 1⟩
    else
      match storeGet store fkey with
      | some _ => ⟨false, p.2, store, 1⟩
      | none =>
          ⟨true, ⟨mapSet p.2.lockMap fkey ⟨token, expire, now⟩, p.2.client⟩,
           (fkey, ⟨token, expire⟩) :: store, 1⟩

/-- Return value of Locker.unLock: null, true or false. -/
inductive UnlockRet where
  | nullRet
  | trueRet
  | falseRet
deriving DecidableEq

/-- Result of Locker.unLock: the returned value, the post states, and how
many lua_unlock invocations were attempted against the store. -/
structure UnlockResult where
  ret : UnlockRet
  st : LockerState
  store : Store
  luaCalls : Nat
deriving DecidableEq

/-- Locker.unLock (locker.ts 170-185).  defineCommand runs first; the key
is then prefixed; when the lockMap has no entry the call returns null.
Otherwise client.lua_unlock(key, value) runs: a null client throws, and
luaFails true models the call rejecting; both are caught, returning false
with the lockMap entry left in place.  When the call completes, its
integer result is discarded (only the store effect of luaUnlock is kept),
the lockMap entry is deleted and true is returned. -/
def unLock (st : LockerState) (store : Store) (keyPre key : String)
    (conn : ConnResult) (luaFails : Bool) : UnlockResult :=
  let p := defineCommand st conn
  let fkey := keyPre ++ key
  match mapGet p.2.lockMap fkey with
  | none => ⟨UnlockRet.nullRet, p.2, store, 0⟩
  | some entry =>
    match p.1 with
    | none => ⟨UnlockRet.falseRet, p.2, store, 0⟩
    | some _ =>
      if luaFails then ⟨UnlockRet.falseRet, p.2, store, 1⟩
      else
        ⟨UnlockRet.trueRet, ⟨mapDel p.2.lockMap fkey, p.2.client⟩,
         (luaUnlock store fkey entry.value).2, 1⟩

/-- Default value of the interval parameter of Locker.waitLock
(locker.ts line 130). -/
def waitLockDefaultInterval : Nat := 50

/-- Default value of the waitTime parameter of Locker.waitLock
(locker.ts line 130). -/
def waitLockDefaultWaitTime : Nat := 15000

/-- The while loop of Locker.waitLock (locker.ts 132-143).  attempts n is
the boolean outcome of the n-th this.lock call (after its catch handler),
dur n how many milliseconds that call took, interval the delay after a
failed attempt and elapsed the wall-clock time since start_time at the
loop check.  The loop runs while elapsed is below waitTime, returns true
on the first successful attempt and otherwise sleeps for interval before
rechecking; when the check fails it logs a timeout and returns false.
fuel bounds the number of iterations so the model is total; every theorem
below supplies enough fuel for the deadline to be reached first. -/
def waitLockLoop (attempts : Nat → Bool) (dur : Nat → Nat)
    (interval waitTime : Nat) : Nat → Nat → Nat → Bool
  | 0, _, _ => false
  | fuel + 1, n, elapsed =>
    if elapsed < waitTime then
      if attempts n then true
      else waitLockLoop attempts dur interval waitTime fuel (n + 1)
        (elapsed + dur n + interval)
    else false

/-- Locker.waitLock (locker.ts 130-150): run the polling loop from attempt
0 with zero elapsed time. -/
def waitLock (attempts : Nat → Bool) (dur : Nat → Nat)
    (interval waitTime fuel : Nat) : Bool :=
  waitLockLoop attempts dur interval waitTime fuel 0 0

/-- Wall-clock time consumed by k failed attempts starting at attempt n:
each failed attempt costs its own duration plus one interval of sleep. -/
def stepSum (dur : Nat → Nat) (interval n : Nat) : Nat → Nat
  | 0 => 0
  | k + 1 => stepSum dur interval n k + dur (n + k) + interval

/-- Options of the SchedulerLock decorator that select the acquisition
path: waitLockInterval and waitLockTimeOut, each possibly undefined. -/
structure GuardCfg where
  waitLockInterval : Option Nat
  waitLockTimeOut : Option Nat
deriving DecidableEq

/-- JS truthiness of an optional number: undefined and 0 are falsy.  This
is the test the decorator's condition (waitLockInterval || waitLockTimeOut)
applies to each option. -/
def jsTruthy : Option Nat → Bool
  | none => false
  | some n => n != 0

/-- Errors that can cross the guarded wrapper's boundary: the Error thrown
when ScheduleLocker.locker is still null, or the wrapped operation's own
error re-raised unchanged. -/
inductive GuardErr (ε : Type) where
  | uninit (name method : String)
  | opErr (e : ε)
deriving DecidableEq

/-- What the guarded wrapper's caller observes: a normal return (none is
the undefined returned on a skip) or a thrown error. -/
inductive GuardOutcome (ε α : Type) where
  | returned (v : Option α)
  | thrown (e : GuardErr ε)
deriving DecidableEq

/-- Observable events of one guarded invocation, in order of occurrence.
acquireAttempt records which acquisition path ran: true for waitLock,
false for a single lock attempt.  acquireFailedWarn is the logger.Warn
naming the lock and the skipped method. -/
inductive GEvent where
  | acquireAttempt (viaWait : Bool)
  | acquireFailedWarn (name method : String)
  | opInvoke
  | releaseAttempt
  | releaseErrorLogged
deriving DecidableEq

/-- Result of one guarded invocation: the caller-visible outcome and the
ordered event trace. -/
structure GuardResult (ε α : Type) where
  outcome : GuardOutcome ε α
  events : List GEvent
deriving DecidableEq

/-- The descriptor value function installed by SchedulerLock (decorator
file, lines 122-161).  lockerPresent is whether ScheduleLocker.locker is
non-null; when it is null an Error naming the lock and method is thrown
before anything else.  Otherwise the acquisition path is waitLock when
(waitLockInterval || waitLockTimeOut) is truthy and a single lock call
otherwise; acqOk is the boolean that path produced (its catch handler
already maps rejections to false).  On acquisition failure the wrapper
logs a warning and returns undefined without invoking the operation.  On
success the operation runs once inside try/catch/finally: the finally
always awaits unLock once (releaseFails true means that call rejected; the
rejection is caught and logged, never escalated), then the operation's
result is returned, or its error is re-raised unchanged. -/
def schedulerLockValue (ε α : Type) (lockerPresent : Bool)
    (name method : String) (cfg : GuardCfg) (acqOk : Bool)
    (opRes : Except ε α) (releaseFails : Bool) : GuardResult ε α :=
  if lockerPresent then
    let viaWait := jsTruthy cfg.waitLockInterval || jsTruthy cfg.waitLockTimeOut
    if acqOk then
      let rel := GEvent.releaseAttempt ::
        (if releaseFails then [GEvent.releaseErrorLogged] else [])
      match opRes with
      | Except.ok v =>
          ⟨GuardOutcome.returned (some v),
           GEvent.acquireAttempt viaWait :: GEvent.opInvoke :: rel⟩
      | Except.error e =>
          ⟨GuardOutcome.thrown (GuardErr.opErr e),
           GEvent.acquireAttempt viaWait :: GEvent.opInvoke :: rel⟩
    else
      ⟨GuardOutcome.returned none,
       [GEvent.acquireAttempt viaWait, GEvent.acquireFailedWarn name method]⟩
  else
    ⟨GuardOutcome.thrown (GuardErr.uninit name method), []⟩

/-- Example Locker state tracking the prefixed key "p:k" with token "tokA"
and a ready client already carrying the lua_unlock command. -/
def exLockerTracked : LockerState :=
  ⟨[("p:k", ⟨"tokA", 10000, 0⟩)], some ⟨true, true, 1⟩⟩

/-- defineCommand only touches the cached client; the lockMap of the
Locker is preserved. -/
theorem defineCommand_lockMap (st : LockerState) (r : ConnResult) :
    (defineCommand st r).2.lockMap = st.lockMap := by
  rcases st with ⟨lm, cl⟩
  cases cl with
  | none => cases r <;> simp [defineCommand, doConnect]
  | some c =>
    by_cases h : c.ready = true <;> cases r <;> simp [defineCommand, doConnect, h]

/-- Deleting a key from the local map makes lookup of that key fail. -/
theorem mapGet_mapDel (m : List (String × LockEntry)) (k : String) :
    mapGet (mapDel m k) k = none := by
  have hf : (List.filter (fun p => p.1 != k) m).find? (fun p => p.1 == k) = none := by
    rw [List.find?_eq_none]
    intro x hx
    have hm := List.of_mem_filter hx
    simp only [bne_iff_ne, ne_eq] at hm
    simp [hm]
  simp [mapGet, mapDel, hf]

/-- Setting a key in the local map makes lookup of that key return the new
entry. -/
theorem mapGet_mapSet (m : List (String × LockEntry)) (k : String)
    (v : LockEntry) : mapGet (mapSet m k v) k = some v := by
  simp [mapGet, mapSet, List.find?]

/-- C1: the atomic release script deletes the remote record only when the
stored value equals the releasing process's token; with an absent key it
returns 0 and with a mismatched token it returns -1, leaving the store
unchanged in both cases, so a release with a stale token is a no-op on the
store and never a delete. -/
theorem luaUnlock_token_safety (s : Store) (k tok : String) :
    (storeGet s k = none → luaUnlock s k tok = (0, s))
    ∧ (∀ r, storeGet s k = some r → r.value ≠ tok → luaUnlock s k tok = (-1, s))
    ∧ (∀ r, storeGet s k = some r → r.value = tok →
        luaUnlock s k tok = (1, storeDel s k))
    ∧ ((luaUnlock s k tok).2 ≠ s → ∃ r, storeGet s k = some r ∧ r.value = tok) := by
  refine ⟨?_, ?_, ?_, ?_⟩
  · intro h; simp [luaUnlock, h]
  · intro r hr hne; simp [luaUnlock, hr, hne]
  · intro r hr he; simp [luaUnlock, hr, he]
  · intro hne
    unfold luaUnlock at hne
    cases hg : storeGet s k with
    | none => rw [hg] at hne; simp at hne
    | some r =>
      rw [hg] at hne
      by_cases he : r.value = tok
      · exact ⟨r, rfl, he⟩
      · simp [he] at hne

/-- Witness for C1: a store holding token "b" under key "k" is left
unchanged by a release presenting the stale token "a", with status -1. -/
theorem luaUnlock_token_safety_witness :
    luaUnlock [("k", ⟨"b", 5⟩)] "k" "a" = (-1, [("k", ⟨"b", 5⟩)]) :=
  (luaUnlock_token_safety [("k", ⟨"b", 5⟩)] "k" "a").2.1 ⟨"b", 5⟩ (by decide)
    (by decide)

/-- C2: Locker.unLock discards the integer produced by lua_unlock and
returns true for a locally-tracked key whatever the remote outcome was:
with a mismatched remote token, with a matching one, and with the key
absent from the store, the caller receives the same value true, although
the function's own doc comment promises the distinct statuses -1, 1 and 0
for those cases. -/
theorem unLock_return_ignores_remote_outcome :
    (unLock exLockerTracked [("p:k", ⟨"tokB", 7⟩)] "p:" "k" ConnResult.err
      false).ret = UnlockRet.trueRet
    ∧ (unLock exLockerTracked [("p:k", ⟨"tokA", 7⟩)] "p:" "k" ConnResult.err
      false).ret = UnlockRet.trueRet
    ∧ (unLock exLockerTracked [] "p:" "k" ConnResult.err
      false).ret = UnlockRet.trueRet := by
  decide

/-- Counterexample for C3: unLock on an untracked key does return null,
but only after defineCommand has run: starting with no cached client, the
call establishes a connection (and even registers the release script), so
store interaction is attempted before the local check. -/
theorem unLock_untracked_establishes_connection :
    (unLock ⟨[], none⟩ [] "p:" "k" (ConnResult.ok ⟨true, false, 0⟩)
      false).ret = UnlockRet.nullRet
    ∧ (unLock ⟨[], none⟩ [] "p:" "k" (ConnResult.ok ⟨true, false, 0⟩)
      false).st.client = some ⟨true, true, 1⟩ := by
  decide

/-- C3 (amended): a release call on a key with no local ownership entry
returns null (NOT_TRACKED_LOCALLY), never invokes the atomic release
operation, and leaves the store content and the local map unchanged;
connection establishment, however, is attempted before the local check. -/
theorem unLock_not_tracked_spec (st : LockerState) (store : Store)
    (keyPre key : String) (conn : ConnResult) (luaFails : Bool)
    (h : mapGet st.lockMap (keyPre ++ key) = none) :
    (unLock st store keyPre key conn luaFails).ret = UnlockRet.nullRet
    ∧ (unLock st store keyPre key conn luaFails).store = store
    ∧ (unLock st store keyPre key conn luaFails).luaCalls = 0
    ∧ (unLock st store keyPre key conn luaFails).st.lockMap = st.lockMap := by
  simp [unLock, h, defineCommand_lockMap]

/-- Witness for C3 (amended) at a concrete untracked key. -/
theorem unLock_not_tracked_spec_witness :
    (unLock ⟨[], some ⟨true, true, 1⟩⟩ [] "p:" "k" ConnResult.err
      false).ret = UnlockRet.nullRet :=
  (unLock_not_tracked_spec ⟨[], some ⟨true, true, 1⟩⟩ [] "p:" "k"
    ConnResult.err false (by decide)).1

/-- Counterexample for C4: when the lua_unlock call errors on a tracked
key, unLock returns false but the local ownership entry is NOT removed:
the catch skips lockMap.delete, so the entry survives the call. -/
theorem unLock_store_error_retains_entry :
    (unLock exLockerTracked [("p:k", ⟨"tokA", 7⟩)] "p:" "k" ConnResult.err
      true).ret = UnlockRet.falseRet
    ∧ mapGet (unLock exLockerTracked [("p:k", ⟨"tokA", 7⟩)] "p:" "k"
      ConnResult.err true).st.lockMap "p:k" = some ⟨"tokA", 10000, 0⟩ := by
  decide

/-- C4 (amended): a release call on a locally-tracked key never raises
(the model is a total function into a result value); when the atomic
release operation completes, the local entry is removed before returning
true, whatever the remote outcome (released, absent, or mismatch); when no
client is available or the release operation errors, the error is reported
as the failure result false and the local entry is retained. -/
theorem unLock_tracked_spec (st : LockerState) (store : Store)
    (keyPre key : String) (conn : ConnResult) (entry : LockEntry)
    (h : mapGet st.lockMap (keyPre ++ key) = some entry) :
    ((defineCommand st conn).1.isSome = true →
        (unLock st store keyPre key conn false).ret = UnlockRet.trueRet
        ∧ mapGet (unLock st store keyPre key conn false).st.lockMap
            (keyPre ++ key) = none
        ∧ (unLock st store keyPre key conn false).store
            = (luaUnlock store (keyPre ++ key) entry.value).2)
    ∧ (∀ luaFails, (defineCommand st conn).1 = none →
        (unLock st store keyPre key conn luaFails).ret = UnlockRet.falseRet
        ∧ (unLock st store keyPre key conn luaFails).st.lockMap = st.lockMap
        ∧ (unLock st store keyPre key conn luaFails).store = store)
    ∧ ((defineCommand st conn).1.isSome = true →
        (unLock st store keyPre key conn true).ret = UnlockRet.falseRet
        ∧ (unLock st store keyPre key conn true).st.lockMap = st.lockMap
        ∧ (unLock st store keyPre key conn true).store = store) := by
  refine ⟨?_, ?_, ?_⟩
  · intro hs
    rcases Option.isSome_iff_exists.mp hs with ⟨c, hc⟩
    simp [unLock, h, hc, mapGet_mapDel, defineCommand_lockMap]
  · intro luaFails hc
    simp [unLock, h, hc, defineCommand_lockMap]
  · intro hs
    rcases Option.isSome_iff_exists.mp hs with ⟨c, hc⟩
    simp [unLock, h, hc, defineCommand_lockMap]

/-- Witness for C4 (amended): a successful release of a tracked key
removes the local entry and returns true. -/
theorem unLock_tracked_spec_witness :
    (unLock exLockerTracked [("p:k", ⟨"tokA", 7⟩)] "p:" "k" ConnResult.err
      false).ret = UnlockRet.trueRet :=
  ((unLock_tracked_spec exLockerTracked [("p:k", ⟨"tokA", 7⟩)] "p:" "k"
    ConnResult.err ⟨"tokA", 10000, 0⟩ (by decide)).1 (by decide)).1

/-- C5: every Locker.lock call draws a 16-byte (128-bit) random token (the
token argument of the model stands for that per-call draw); at most one
SET reaches the store, and exactly one whenever a client is available (no
retry); when the SET succeeds, the record with the token and expiry is
stored, the local ownership entry is recorded with the token, expiry and
acquisition time, and true is returned; when the key is already present,
false is returned without retry and nothing changes; on a store error
(connection failure or SET rejection), lock returns false instead of
throwing (the model is a total function) and nothing changes. -/
theorem lock_spec (st : LockerState) (store : Store) (keyPre key token : String)
    (expire now : Nat) (conn : ConnResult) (setFails : Bool) :
    128 ≤ 8 * tokenRandomBytes
    ∧ (lock st store keyPre key token expire now conn setFails).setOps ≤ 1
    ∧ ((defineCommand st conn).1.isSome = true →
        (lock st store keyPre key token expire now conn setFails).setOps = 1)
    ∧ ((defineCommand st conn).1 = none →
        (lock st store keyPre key token expire now conn setFails).ret = false
        ∧ (lock st store keyPre key token expire now conn setFails).setOps = 0
        ∧ (lock st store keyPre key token expire now conn setFails).store = store
        ∧ (lock st store keyPre key token expire now conn setFails).st.lockMap
            = st.lockMap)
    ∧ ((defineCommand st conn).1.isSome = true → setFails = false →
        storeGet store (keyPre ++ key) = none →
        (lock st store keyPre key token expire now conn setFails).ret = true
        ∧ (lock st store keyPre key token expire now conn setFails).store
            = (keyPre ++ key, ⟨token, expire⟩) :: store
        ∧ mapGet (lock st store keyPre key token expire now conn setFails).st.lockMap
            (keyPre ++ key) = some ⟨token, expire, now⟩)
    ∧ ((defineCommand st conn).1.isSome = true → setFails = false →
        (storeGet store (keyPre ++ key)).isSome = true →
        (lock st store keyPre key token expire now conn setFails).ret = false
        ∧ (lock st store keyPre key token expire now conn setFails).store = store
        ∧ (lock st store keyPre key token expire now conn setFails).st.lockMap
            = st.lockMap)
    ∧ (setFails = true →
        (lock st store keyPre key token expire now conn setFails).ret = false
        ∧ (lock st store keyPre key token expire now conn setFails).store = store
        ∧ (lock st store keyPre key token expire now conn setFails).st.lockMap
            = st.lockMap) := by
  refine ⟨by decide, ?_, ?_, ?_, ?_, ?_, ?_⟩
  · cases hc : (defineCommand st conn).1 with
    | none => simp [lock, hc]
    | some c =>
      cases setFails with
      | true => simp [lock, hc]
      | false =>
        cases hg : storeGet store (keyPre ++ key) <;> simp [lock, hc, hg]
  · intro hs
    rcases Option.isSome_iff_exists.mp hs with ⟨c, hc⟩
    cases setFails with
    | true => simp [lock, hc]
    | false =>
      cases hg : storeGet store (keyPre ++ key) <;> simp [lock, hc, hg]
  · intro hc
    simp [lock, hc, defineCommand_lockMap]
  · intro hs hf hg
    rcases Option.isSome_iff_exists.mp hs with ⟨c, hc⟩
    subst hf
    simp [lock, hc, hg, mapGet_mapSet, defineCommand_lockMap]
  · intro hs hf hg
    rcases Option.isSome_iff_exists.mp hs with ⟨c, hc⟩
    rcases Option.isSome_iff_exists.mp hg with ⟨r, hr⟩
    subst hf
    simp [lock, hc, hr, defineCommand_lockMap]
  · intro hf
    subst hf
    cases hc : (defineCommand st conn).1 <;>
      simp [lock, hc, defineCommand_lockMap]

/-- Witness for C5: a successful acquisition at a concrete empty store. -/
theorem lock_spec_witness :
    (lock ⟨[], some ⟨true, true, 1⟩⟩ [] "p:" "k" "tok" 10000 123 ConnResult.err
      false).ret = true :=
  ((lock_spec ⟨[], some ⟨true, true, 1⟩⟩ [] "p:" "k" "tok" 10000 123
    ConnResult.err false).2.2.2.2.1 (by decide) rfl (by decide)).1

/-- C9: obtaining the store connection is idempotent and registers the
release script at most once per client: a cached ready client is returned
with the whole Locker state unchanged; a connection is established only
when the cached client is null or not ready; a fresh client that already
carries lua_unlock is cached as is (its registration count does not move),
and one that lacks it is registered exactly once (its registration count
grows by one and it now carries the script, so later calls take the
unchanged path). -/
theorem defineCommand_spec (st : LockerState) (r : ConnResult) :
    (∀ c, st.client = some c → c.ready = true → defineCommand st r = (some c, st))
    ∧ (st.client = none → defineCommand st r = doConnect st r)
    ∧ (∀ c, st.client = some c → c.ready = false →
        defineCommand st r = doConnect st r)
    ∧ (∀ c0, c0.hasLua = true →
        doConnect st (ConnResult.ok c0) = (some c0, ⟨st.lockMap, some c0⟩))
    ∧ (∀ c0, c0.hasLua = false →
        doConnect st (ConnResult.ok c0)
          = (some ⟨c0.ready, true, c0.regCount + 1⟩,
             ⟨st.lockMap, some ⟨c0.ready, true, c0.regCount + 1⟩⟩)) := by
  refine ⟨?_, ?_, ?_, ?_, ?_⟩
  · intro c hc hr; simp [defineCommand, hc, hr]
  · intro hc; simp [defineCommand, hc]
  · intro c hc hr; simp [defineCommand, hc, hr]
  · intro c0 hl; simp [doConnect, hl]
  · intro c0 hl; simp [doConnect, hl]

/-- Witness for C9: a cached ready client is returned unchanged. -/
theorem defineCommand_spec_witness :
    defineCommand ⟨[], some ⟨true, true, 1⟩⟩ ConnResult.err
      = (some ⟨true, true, 1⟩, ⟨[], some ⟨true, true, 1⟩⟩) :=
  (defineCommand_spec ⟨[], some ⟨true, true, 1⟩⟩ ConnResult.err).1
    ⟨true, true, 1⟩ rfl rfl

/-- Peeling the first failed attempt off the elapsed-time sum. -/
theorem stepSum_succ_front (dur : Nat → Nat) (interval n k : Nat) :
    stepSum dur interval n (k + 1)
      = dur n + interval + stepSum dur interval (n + 1) k := by
  induction k with
  | zero => simp [stepSum]
  | succ k ih =>
    have hidx : n + (k + 1) = n + 1 + k := by omega
    calc stepSum dur interval n (k + 1 + 1)
        = stepSum dur interval n (k + 1) + dur (n + (k + 1)) + interval := rfl
      _ = dur n + interval + stepSum dur interval (n + 1) k
          + dur (n + 1 + k) + interval := by rw [ih, hidx]
      _ = dur n + interval
          + (stepSum dur interval (n + 1) k + dur (n + 1 + k) + interval) := by
            omega
      _ = dur n + interval + stepSum dur interval (n + 1) (k + 1) := rfl

/-- The polling loop of Locker.waitLock returns true exactly when some
attempt succeeds while the elapsed wall-clock time is still below the
deadline, provided the fuel covers the whole window. -/
theorem waitLockLoop_iff (attempts : Nat → Bool) (dur : Nat → Nat)
    (interval waitTime : Nat) :
    ∀ fuel n elapsed, waitTime ≤ elapsed + fuel * interval →
      (waitLockLoop attempts dur interval waitTime fuel n elapsed = true ↔
        ∃ k, elapsed + stepSum dur interval n k < waitTime
          ∧ attempts (n + k) = true) := by
  intro fuel
  induction fuel with
  | zero =>
    intro n elapsed hb
    simp only [Nat.zero_mul, Nat.add_zero] at hb
    constructor
    · intro h; simp [waitLockLoop] at h
    · rintro ⟨k, hk, _⟩
      exfalso; omega
  | succ fuel ih =>
    intro n elapsed hb
    rw [add_mul, one_mul] at hb
    by_cases hlt : elapsed < waitTime
    · by_cases ha : attempts n = true
      · constructor
        · intro _
          exact ⟨0, by simpa [stepSum] using hlt, by simpa using ha⟩
        · intro _; simp [waitLockLoop, hlt, ha]
      · have hstep : waitTime ≤ elapsed + dur n + interval + fuel * interval := by
          omega
        have ihx := ih (n + 1) (elapsed + dur n + interval) hstep
        constructor
        · intro h
          have h2 : waitLockLoop attempts dur interval waitTime fuel (n + 1)
              (elapsed + dur n + interval) = true := by
            simpa [waitLockLoop, hlt, ha] using h
          rcases ihx.mp h2 with ⟨k, hk1, hk2⟩
          refine ⟨k + 1, ?_, ?_⟩
          · rw [stepSum_succ_front]
            omega
          · have hidx : n + (k + 1) = n + 1 + k := by omega
            rw [hidx]; exact hk2
        · rintro ⟨k, hk1, hk2⟩
          cases k with
          | zero => exact absurd (by simpa using hk2) ha
          | succ k =>
            have hk1x : elapsed + dur n + interval
                + stepSum dur interval (n + 1) k < waitTime := by
              rw [stepSum_succ_front] at hk1; omega
            have hk2x : attempts (n + 1 + k) = true := by
              have hidx : n + (k + 1) = n + 1 + k := by omega
              rwa [hidx] at hk2
            have hrec := ihx.mpr ⟨k, hk1x, hk2x⟩
            simpa [waitLockLoop, hlt, ha] using hrec
    · constructor
      · intro h; simp [waitLockLoop, hlt] at h
      · rintro ⟨k, hk1, _⟩
        exfalso; omega

/-- C6: Locker.waitLock repeatedly attempts this.lock, sleeping for the
fixed interval after every failed attempt, and its loop condition checks
the wall-clock time elapsed since the call started against waitTime: it
returns true exactly when some attempt succeeds while the elapsed time is
still below the deadline, and false (after logging a timeout) otherwise;
the signature defaults are interval 50 and waitTime 15000 milliseconds.
The fuel hypothesis only asks for enough iterations to cover the window. -/
theorem waitLock_spec (attempts : Nat → Bool) (dur : Nat → Nat)
    (interval waitTime fuel : Nat) (hfuel : waitTime ≤ fuel * interval) :
    (waitLock attempts dur interval waitTime fuel = true ↔
      ∃ k, stepSum dur interval 0 k < waitTime ∧ attempts k = true)
    ∧ waitLockDefaultInterval = 50 ∧ waitLockDefaultWaitTime = 15000 := by
  refine ⟨?_, rfl, rfl⟩
  have h := waitLockLoop_iff attempts dur interval waitTime fuel 0 0
    (by simpa using hfuel)
  simpa [waitLock] using h

/-- Witness for C6: with the default interval and deadline, an acquisition
that succeeds on the third attempt makes waitLock return true. -/
theorem waitLock_spec_witness :
    waitLock (fun k => k == 2) (fun _ => 0) 50 15000 300 = true :=
  ((waitLock_spec (fun k => k == 2) (fun _ => 0) 50 15000 300 (by decide)).1).mpr
    ⟨2, by decide, by decide⟩

/-- C7: in every guarded invocation whose acquisition succeeded, the event
trace is exactly one acquisition, one invocation of the wrapped operation,
and one release attempt before control returns, with a release failure
only logged; the operation's normal result is returned to the caller after
the release attempt, its error is re-raised unchanged after the release
attempt, and the caller-visible outcome never depends on whether the
release failed. -/
theorem guard_release_all_paths (ε α : Type) (name method : String)
    (cfg : GuardCfg) (opRes : Except ε α) (releaseFails : Bool)
    (lockerPresent acqOk : Bool) (hl : lockerPresent = true)
    (ha : acqOk = true) :
    (schedulerLockValue ε α lockerPresent name method cfg acqOk opRes
        releaseFails).events
      = GEvent.acquireAttempt
          (jsTruthy cfg.waitLockInterval || jsTruthy cfg.waitLockTimeOut)
        :: GEvent.opInvoke :: GEvent.releaseAttempt
        :: (if releaseFails then [GEvent.releaseErrorLogged] else [])
    ∧ (schedulerLockValue ε α lockerPresent name method cfg acqOk opRes
        releaseFails).events.count GEvent.releaseAttempt = 1
    ∧ (schedulerLockValue ε α lockerPresent name method cfg acqOk opRes
        releaseFails).events.count GEvent.opInvoke = 1
    ∧ (∀ v, opRes = Except.ok v →
        (schedulerLockValue ε α lockerPresent name method cfg acqOk opRes
          releaseFails).outcome = GuardOutcome.returned (some v))
    ∧ (∀ e, opRes = Except.error e →
        (schedulerLockValue ε α lockerPresent name method cfg acqOk opRes
          releaseFails).outcome = GuardOutcome.thrown (GuardErr.opErr e))
    ∧ (∀ rf1 rf2 : Bool,
        (schedulerLockValue ε α lockerPresent name method cfg acqOk opRes
          rf1).outcome
        = (schedulerLockValue ε α lockerPresent name method cfg acqOk opRes
          rf2).outcome) := by
  subst hl; subst ha
  have hev : (schedulerLockValue ε α true name method cfg true opRes
      releaseFails).events
      = GEvent.acquireAttempt
          (jsTruthy cfg.waitLockInterval || jsTruthy cfg.waitLockTimeOut)
        :: GEvent.opInvoke :: GEvent.releaseAttempt
        :: (if releaseFails then [GEvent.releaseErrorLogged] else []) := by
    cases opRes <;> simp [schedulerLockValue]
  refine ⟨hev, ?_, ?_, ?_, ?_, ?_⟩
  · rw [hev]
    cases hw : jsTruthy cfg.waitLockInterval || jsTruthy cfg.waitLockTimeOut <;>
      cases releaseFails <;> rfl
  · rw [hev]
    cases hw : jsTruthy cfg.waitLockInterval || jsTruthy cfg.waitLockTimeOut <;>
      cases releaseFails <;> rfl
  · intro v hv; subst hv; simp [schedulerLockValue]
  · intro e he; subst he; simp [schedulerLockValue]
  · intro rf1 rf2; cases opRes <;> simp [schedulerLockValue]

/-- Witness for C7 at a concrete successful invocation. -/
theorem guard_release_all_paths_witness :
    (schedulerLockValue Unit Nat true "lockA" "methodA" ⟨none, none⟩ true
      (Except.ok 7) false).events
      = [GEvent.acquireAttempt false, GEvent.opInvoke, GEvent.releaseAttempt] :=
  (guard_release_all_paths Unit Nat "lockA" "methodA" ⟨none, none⟩
    (Except.ok 7) false true true rfl rfl).1

/-- Counterexample for C8: with waitLockInterval supplied as the number 0
(and waitLockTimeOut unsupplied), the wrapper takes the single-lock path,
not the waitLock path, because the condition applies JS truthiness and 0
is falsy — so a supplied option does not by itself select waitAcquire. -/
theorem guard_supplied_zero_interval_single_acquire :
    (schedulerLockValue Unit Nat true "lockA" "methodA" ⟨some 0, none⟩ true
      (Except.ok 1) false).events.head?
      = some (GEvent.acquireAttempt false) := by
  decide

/-- C8 (amended): the wrapper acquires via waitLock exactly when
waitLockInterval or waitLockTimeOut is supplied with a truthy (nonzero)
value, and via a single lock call otherwise; whenever acquisition fails it
logs a warning naming the lock and the skipped method and returns
undefined without ever invoking the wrapped operation. -/
theorem guard_acquisition_and_skip (ε α : Type) (name method : String)
    (cfg : GuardCfg) (acqOk : Bool) (opRes : Except ε α)
    (releaseFails : Bool) (lockerPresent : Bool) (hl : lockerPresent = true) :
    (schedulerLockValue ε α lockerPresent name method cfg acqOk opRes
        releaseFails).events.head?
      = some (GEvent.acquireAttempt
          (jsTruthy cfg.waitLockInterval || jsTruthy cfg.waitLockTimeOut))
    ∧ (acqOk = false →
        (schedulerLockValue ε α lockerPresent name method cfg acqOk opRes
          releaseFails).outcome = GuardOutcome.returned none
        ∧ (schedulerLockValue ε α lockerPresent name method cfg acqOk opRes
            releaseFails).events
          = [GEvent.acquireAttempt
              (jsTruthy cfg.waitLockInterval || jsTruthy cfg.waitLockTimeOut),
             GEvent.acquireFailedWarn name method]
        ∧ (schedulerLockValue ε α lockerPresent name method cfg acqOk opRes
            releaseFails).events.count GEvent.opInvoke = 0) := by
  subst hl
  constructor
  · cases acqOk <;> cases opRes <;> simp [schedulerLockValue]
  · intro h; subst h
    refine ⟨by simp [schedulerLockValue], by simp [schedulerLockValue], ?_⟩
    cases hw : jsTruthy cfg.waitLockInterval || jsTruthy cfg.waitLockTimeOut <;>
      simp [schedulerLockValue, hw]

/-- Witness for C8 (amended): a truthy waitLockInterval selects the
waitLock path. -/
theorem guard_acquisition_and_skip_witness :
    (schedulerLockValue Unit Nat true "lockA" "methodA" ⟨some 10, none⟩ true
      (Except.ok 1) false).events.head?
      = some (GEvent.acquireAttempt true) :=
  (guard_acquisition_and_skip Unit Nat "lockA" "methodA" ⟨some 10, none⟩ true
    (Except.ok 1) false true rfl).1

/-- C10: when the process-wide locker reference is still null, a guarded
invocation throws the uninitialized error naming the lock and the method,
the wrapped operation is never invoked, and nothing is logged or returned
— this is a thrown error, not the silent skip used for ordinary
acquisition failure. -/
theorem guard_uninitialized_throws (ε α : Type) (name method : String)
    (cfg : GuardCfg) (acqOk : Bool) (opRes : Except ε α)
    (releaseFails : Bool) (lockerPresent : Bool) (hl : lockerPresent = false) :
    (schedulerLockValue ε α lockerPresent name method cfg acqOk opRes
        releaseFails).outcome = GuardOutcome.thrown (GuardErr.uninit name method)
    ∧ (schedulerLockValue ε α lockerPresent name method cfg acqOk opRes
        releaseFails).events = []
    ∧ (∀ v, (schedulerLockValue ε α lockerPresent name method cfg acqOk opRes
        releaseFails).outcome ≠ GuardOutcome.returned v) := by
  subst hl
  refine ⟨rfl, rfl, ?_⟩
  intro v
  simp [schedulerLockValue]

/-- Witness for C10 at concrete inputs. -/
theorem guard_uninitialized_throws_witness :
    (schedulerLockValue Unit Nat false "lockA" "methodA" ⟨none, none⟩ false
      (Except.ok 1) false).outcome
      = GuardOutcome.thrown (GuardErr.uninit "lockA" "methodA") :=
  (guard_uninitialized_throws Unit Nat "lockA" "methodA" ⟨none, none⟩ false
    (Except.ok 1) false false rfl).1

end KoattySchedule
